import Mathlib

/-!
Shallow embedding of `attr/_make.py` (an early version of the `attrs`
library).  Python values are modelled by the inductive type `Val`;
factory callables (instances of the `Factory` class) are modelled by the
value they produce when called.  Machine-level identity (`is`) is
modelled by equality of `Val`, which is adequate because the library
creates a single `NOTHING` sentinel.  Exceptions are modelled with
`Except`.
-/

set_option maxHeartbeats 1000000

namespace AttrsMake

/-- Python values appearing in this library: the `NOTHING` sentinel
(the unique instance of `_Nothing`), `None`, integers, strings, and
`Factory` instances (modelled by the value their callable returns). -/
inductive Val where
  | nothing
  | none
  | int (n : Int)
  | str (s : String)
  | factory (produces : Val)
deriving DecidableEq, Repr

/-- Is this value an instance of the `Factory` class
(`isinstance(d, Factory)`)? -/
def Val.isFactory : Val → Bool
  | .factory _ => true
  | _ => false

/-- Python `==` on modelled values.  `_Nothing.__eq__` returns
`self.__class__ == _Nothing`, i.e. `True` for every right operand; on
the right-hand side the reflected call gives the same result because
the other modelled types return `NotImplemented` on a foreign operand.
Other values compare structurally (a `Factory` instance compares by its
attrs-generated `__eq__`, i.e. by its single `factory` field). -/
def pyEq : Val → Val → Bool
  | .nothing, _ => true
  | _, .nothing => true
  | .none, .none => true
  | .int m, .int n => m == n
  | .str a, .str b => a == b
  | .factory a, .factory b => pyEq a b
  | _, _ => false

/-- Python `!=`: `_Nothing.__ne__` is `not self == other`, and the other
modelled types negate `==` as well. -/
def pyNe (a b : Val) : Bool := !(pyEq a b)

/-- Python `hash` on modelled values.  `_Nothing` defines `__eq__` but
no `__hash__`, so its instances are unhashable (`none` here models the
`TypeError`).  Integers hash to themselves, the other hashable values
are given fixed tagged encodings. -/
def pyHash : Val → Option Int
  | .nothing => Option.none
  | .none => some 271828
  | .int n => some n
  | .str s => some (s.data.foldl (fun acc c => acc * 31 + (c.toNat : Int)) 7)
  | .factory v => (pyHash v).map (fun h => h * 1000003 + 11)

/-- `_CountingAttr`: the object returned by `attr()`, carrying the
global creation counter and the declared default, validator and flags.
The validator callable is modelled by an opaque identifier. -/
structure CountingAttr where
  counter : Nat
  default : Val
  validator : Option Nat
  no_repr : Bool
  no_cmp : Bool
  no_hash : Bool
  no_init : Bool
deriving DecidableEq, Repr

/-- Arguments of one `attr()` call (everything but the counter). -/
structure AttrSpec where
  default : Val := Val.nothing
  validator : Option Nat := Option.none
  no_repr : Bool := false
  no_cmp : Bool := false
  no_hash : Bool := false
  no_init : Bool := false
deriving DecidableEq, Repr

/-- `attr(...)` / `_CountingAttr.__init__`: increments the global class
counter and stores it on the new instance.  The global counter is
modelled by explicit state passing: the function takes the current
value of `_CountingAttr.counter` and returns the new instance together
with the updated counter. -/
def attr (spec : AttrSpec) (counter : Nat) : CountingAttr × Nat :=
  (⟨counter + 1, spec.default, spec.validator,
    spec.no_repr, spec.no_cmp, spec.no_hash, spec.no_init⟩, counter + 1)

/-- A sequence of `attr()` calls made in declaration order, threading
the global counter. -/
def attrCalls (counter : Nat) : List AttrSpec → List CountingAttr
  | [] => []
  | s :: rest =>
    let (ca, counter') := attr s counter
    ca :: attrCalls counter' rest

/-- `Attribute`: the read-only result of converting a `_CountingAttr`. -/
structure Attribute where
  name : String
  default : Val
  validator : Option Nat
  no_repr : Bool
  no_cmp : Bool
  no_hash : Bool
  no_init : Bool
deriving DecidableEq, Repr

/-- `Attribute.from_counting_attr`. -/
def Attribute.from_counting_attr (name : String) (ca : CountingAttr) :
    Attribute :=
  ⟨name, ca.default, ca.validator, ca.no_repr, ca.no_cmp, ca.no_hash,
   ca.no_init⟩

/-- Comparison by creation counter, the sort key
`lambda e: e[1].counter` of `_transform_attrs`. -/
def counterLe (p q : String × CountingAttr) : Prop :=
  p.2.counter ≤ q.2.counter

instance : DecidableRel counterLe :=
  fun p q => Nat.decLe p.2.counter q.2.counter

instance : IsTotal (String × CountingAttr) counterLe :=
  ⟨fun p q => Nat.le_total p.2.counter q.2.counter⟩

instance : IsTrans (String × CountingAttr) counterLe :=
  ⟨fun _ _ _ h1 h2 => Nat.le_trans h1 h2⟩

/-- The `sorted(..., key=lambda e: e[1].counter)` step of
`_transform_attrs`: the class-dict items sorted ascending by creation
counter.  Python's `sorted` is a stable sort; a stable sort's output is
uniquely determined by the key order, so the insertion sort used here
computes the same list. -/
def sortByCounter (d : List (String × CountingAttr)) :
    List (String × CountingAttr) :=
  d.insertionSort counterLe

/-- The loop body of `_transform_attrs`: walks the counter-sorted
`(name, _CountingAttr)` pairs, converting each to an `Attribute`,
raising `ValueError` when a mandatory attribute (default `is NOTHING`)
follows one with a default, and recording in `had` whether a default
has been seen. -/
def transformLoop (had : Bool) :
    List (String × CountingAttr) → Except String (List Attribute)
  | [] => Except.ok []
  | (n, ca) :: rest =>
    let a := Attribute.from_counting_attr n ca
    if had ∧ a.default = Val.nothing then
      Except.error "No mandatory attributes allowed after an attribute with a default value or factory."
    else
      match transformLoop (had || decide (a.default ≠ Val.nothing)) rest with
      | Except.ok tail => Except.ok (a :: tail)
      | Except.error e => Except.error e

/-- `_transform_attrs` on the `_CountingAttr` members of the class dict
(the dict itself has no reliable order, hence the sort by counter). -/
def _transform_attrs (d : List (String × CountingAttr)) :
    Except String (List Attribute) :=
  transformLoop false (sortByCounter d)

/-- Python `name.lstrip("_")`: drop every leading underscore. -/
def lstripUnderscore (s : String) : String :=
  String.mk (s.data.dropWhile (fun c => c = '_'))

/-- One formal parameter of the generated `__init__`: its name and its
keyword default (`Option.none` means a mandatory positional argument). -/
structure InitArg where
  argName : String
  default : Option Val
deriving DecidableEq, Repr

/-- One line of the generated `__init__` body.  `validate vid an`
models `attr_dict[an].validator(attr_dict[an], <an>)` — note the
second argument is the bare variable named after the *attribute*;
`assign an gn` models `self.<an> = <gn>`; `assignOrFactory an gn f`
models `if <gn> is not NOTHING: self.<an> = <gn> else: self.<an> =
attr_dict[an].default.factory()` with the factory returning `f`. -/
inductive Stmt where
  | validate (vid : Nat) (attrName : String)
  | assign (attrName argName : String)
  | assignOrFactory (attrName argName : String) (factoryVal : Val)
deriving DecidableEq, Repr

/-- The fragment of `_attrs_to_script` emitted for one attribute: one
argument spec and the body lines.  The three cases mirror the source's
chain on `a.default`: a plain default (`is not NOTHING` and not a
`Factory`), a `Factory` default, and no default (`is NOTHING`). -/
def scriptFor (a : Attribute) : InitArg × List Stmt :=
  let argName := lstripUnderscore a.name
  let vstmts : List Stmt :=
    match a.validator with
    | some vid => [Stmt.validate vid a.name]
    | Option.none => []
  match a.default with
  | Val.factory f =>
      (⟨argName, some Val.nothing⟩,
       vstmts ++ [Stmt.assignOrFactory a.name argName f])
  | Val.nothing =>
      (⟨argName, Option.none⟩, vstmts ++ [Stmt.assign a.name argName])
  | d =>
      (⟨argName, some d⟩, vstmts ++ [Stmt.assign a.name argName])

/-- `_attrs_to_script`: the generated initializer, as its argument list
and its body (the source accumulates `args` and `lines` over the same
per-attribute loop). -/
def _attrs_to_script (attrs : List Attribute) :
    List InitArg × List Stmt :=
  (attrs.map (fun a => (scriptFor a).1),
   (attrs.map (fun a => (scriptFor a).2)).flatten)

/-- First-match lookup in an association list (Python variable
environments and instance `__dict__`s). -/
def lookupS : List (String × Val) → String → Option Val
  | [], _ => Option.none
  | (k, v) :: rest, n => if k = n then some v else lookupS rest n

/-- Python call-time argument binding for the generated `__init__`:
each parameter takes the caller's keyword value when passed, its
keyword default otherwise, and a missing mandatory argument raises
`TypeError`. -/
def bindArgs : List InitArg → (String → Option Val) →
    Except String (List (String × Val))
  | [], _ => Except.ok []
  | a :: rest, passed =>
    match passed a.argName, a.default with
    | some v, _ =>
      match bindArgs rest passed with
      | Except.ok env => Except.ok ((a.argName, v) :: env)
      | Except.error e => Except.error e
    | Option.none, some d =>
      match bindArgs rest passed with
      | Except.ok env => Except.ok ((a.argName, d) :: env)
      | Except.error e => Except.error e
    | Option.none, Option.none =>
      Except.error ("TypeError: missing argument " ++ a.argName)

/-- Execution of the generated `__init__` body: `env` is the bound
argument environment, the accumulator is the instance `__dict__` (most
recent assignment first).  An unbound variable raises `NameError`; the
validator call itself is modelled as succeeding. -/
def runStmts (env : List (String × Val)) :
    List Stmt → List (String × Val) → Except String (List (String × Val))
  | [], fields => Except.ok fields
  | Stmt.validate _ attrName :: rest, fields =>
    match lookupS env attrName with
    | some _ => runStmts env rest fields
    | Option.none => Except.error "NameError"
  | Stmt.assign an gn :: rest, fields =>
    match lookupS env gn with
    | some v => runStmts env rest ((an, v) :: fields)
    | Option.none => Except.error "NameError"
  | Stmt.assignOrFactory an gn f :: rest, fields =>
    match lookupS env gn with
    | some v =>
      if v ≠ Val.nothing then runStmts env rest ((an, v) :: fields)
      else runStmts env rest ((an, f) :: fields)
    | Option.none => Except.error "NameError"

/-- Calling the `__init__` generated for `attrs` with the keyword
arguments `passed`: compile the script, bind the arguments, run the
body on an empty instance `__dict__`. -/
def runInit (attrs : List Attribute) (passed : String → Option Val) :
    Except String (List (String × Val)) :=
  match bindArgs (_attrs_to_script attrs).1 passed with
  | Except.ok env => runStmts env (_attrs_to_script attrs).2 []
  | Except.error e => Except.error e

/-- An instance at runtime: the identity and name of its class and its
`__dict__`. -/
structure Inst where
  clsId : Nat
  clsName : String
  fields : List (String × Val)

/-- `_attrs_to_tuple`: the tuple of the instance's values of `attrs`;
a missing field raises `AttributeError`. -/
def _attrs_to_tuple (obj : Inst) : List Attribute → Except String (List Val)
  | [] => Except.ok []
  | a :: rest =>
    match lookupS obj.fields a.name with
    | some v => do
        let t ← _attrs_to_tuple obj rest
        Except.ok (v :: t)
    | Option.none => Except.error "AttributeError"

/-- Python `==` on tuples: same length and pairwise `==`. -/
def tupleEq : List Val → List Val → Bool
  | [], [] => true
  | x :: xs, y :: ys => pyEq x y && tupleEq xs ys
  | _, _ => false

/-- Python ordering on tuples: skip the longest common `==`-equal
prefix; the first differing pair is compared with the element operator
`op` (`Option.none` models `TypeError` on unorderable elements); if one
tuple is a prefix of the other, the lengths are compared with
`lenOp`. -/
def tupleCmp (op : Val → Val → Option Bool) (lenOp : Nat → Nat → Bool) :
    List Val → List Val → Option Bool
  | [], ys => some (lenOp 0 ys.length)
  | _ :: xs, [] => some (lenOp (xs.length + 1) 0)
  | x :: xs, y :: ys =>
    if pyEq x y then tupleCmp op lenOp xs ys else op x y

/-- Python `<` on modelled element values (Python 3 semantics: mixed
types, `None` and the `NOTHING` sentinel are unorderable; `Factory`
instances use their attrs-generated `__lt__` over the singleton tuple
of the `factory` field). -/
def pyLtVal : Val → Val → Option Bool
  | .int m, .int n => some (decide (m < n))
  | .str a, .str b => some (decide (a < b))
  | .factory a, .factory b =>
    if pyEq a b then some false else pyLtVal a b
  | _, _ => Option.none

/-- Python `<=` on modelled element values. -/
def pyLeVal : Val → Val → Option Bool
  | .int m, .int n => some (decide (m ≤ n))
  | .str a, .str b => some (decide (a ≤ b))
  | .factory a, .factory b =>
    if pyEq a b then some true else pyLeVal a b
  | _, _ => Option.none

/-- Python `>` on modelled element values. -/
def pyGtVal : Val → Val → Option Bool
  | .int m, .int n => some (decide (n < m))
  | .str a, .str b => some (decide (b < a))
  | .factory a, .factory b =>
    if pyEq a b then some false else pyGtVal a b
  | _, _ => Option.none

/-- Python `>=` on modelled element values. -/
def pyGeVal : Val → Val → Option Bool
  | .int m, .int n => some (decide (n ≤ m))
  | .str a, .str b => some (decide (b ≤ a))
  | .factory a, .factory b =>
    if pyEq a b then some true else pyGeVal a b
  | _, _ => Option.none

/-- Result of a rich-comparison method: `NotImplemented`, a raised
exception, or a boolean. -/
inductive CmpRes where
  | notImplemented
  | raised (msg : String)
  | val (b : Bool)
deriving DecidableEq, Repr

/-- The generated `__eq__` closed over `attrs`: compare the attribute
tuples when `other` is an instance of `self`'s class (modelled as
class-identity; subclassing is not modelled), `NotImplemented`
otherwise. -/
def eqFor (attrs : List Attribute) (self other : Inst) : CmpRes :=
  if other.clsId = self.clsId then
    match _attrs_to_tuple self attrs, _attrs_to_tuple other attrs with
    | Except.ok t1, Except.ok t2 => CmpRes.val (tupleEq t1 t2)
    | _, _ => CmpRes.raised "AttributeError"
  else CmpRes.notImplemented

/-- The generated `__ne__`: forward `NotImplemented` from `eq`,
otherwise negate it. -/
def neFor (attrs : List Attribute) (self other : Inst) : CmpRes :=
  match eqFor attrs self other with
  | CmpRes.notImplemented => CmpRes.notImplemented
  | CmpRes.raised m => CmpRes.raised m
  | CmpRes.val b => CmpRes.val (!b)

/-- The common shape of the generated `__lt__`/`__le__`/`__gt__`/
`__ge__`: instance check, then tuple comparison with the given element
and length operators. -/
def ordFor (op : Val → Val → Option Bool) (lenOp : Nat → Nat → Bool)
    (attrs : List Attribute) (self other : Inst) : CmpRes :=
  if other.clsId = self.clsId then
    match _attrs_to_tuple self attrs, _attrs_to_tuple other attrs with
    | Except.ok t1, Except.ok t2 =>
      match tupleCmp op lenOp t1 t2 with
      | some b => CmpRes.val b
      | Option.none => CmpRes.raised "TypeError"
    | _, _ => CmpRes.raised "AttributeError"
  else CmpRes.notImplemented

/-- The generated `__lt__`. -/
def ltFor (attrs : List Attribute) : Inst → Inst → CmpRes :=
  ordFor pyLtVal (fun m n => decide (m < n)) attrs

/-- The generated `__le__`. -/
def leFor (attrs : List Attribute) : Inst → Inst → CmpRes :=
  ordFor pyLeVal (fun m n => decide (m ≤ n)) attrs

/-- The generated `__gt__`. -/
def gtFor (attrs : List Attribute) : Inst → Inst → CmpRes :=
  ordFor pyGtVal (fun m n => decide (n < m)) attrs

/-- The generated `__ge__`. -/
def geFor (attrs : List Attribute) : Inst → Inst → CmpRes :=
  ordFor pyGeVal (fun m n => decide (n ≤ m)) attrs

/-- Python `hash` of one tuple of values (`Option.none` when some
element is unhashable): a left fold combining the element hashes. -/
def hashTuple (vs : List Val) : Option Int :=
  vs.foldl
    (fun acc v =>
      match acc, pyHash v with
      | some a, some h => some (a * 1000003 + h)
      | _, _ => Option.none)
    (some 5381)

/-- The generated `__hash__` closed over `attrs`:
`hash(_attrs_to_tuple(self, attrs))`. -/
def hashFor (attrs : List Attribute) (self : Inst) : Except String Int := do
  let t ← _attrs_to_tuple self attrs
  match hashTuple t with
  | some h => Except.ok h
  | Option.none => Except.error "TypeError: unhashable"

/-- Python `repr` of a modelled value. -/
def pyRepr : Val → String
  | .nothing => "NOTHING"
  | .none => "None"
  | .int n => toString n
  | .str s => "\x27" ++ s ++ "\x27"
  | .factory v => "Factory(factory=" ++ pyRepr v ++ ")"

/-- The `name=repr(value)` pieces of the generated `__repr__`; a
missing field raises `AttributeError`. -/
def reprParts (self : Inst) : List Attribute → Except String (List String)
  | [] => Except.ok []
  | a :: rest =>
    match lookupS self.fields a.name with
    | some v => do
        let t ← reprParts self rest
        Except.ok ((a.name ++ "=" ++ pyRepr v) :: t)
    | Option.none => Except.error "AttributeError"

/-- The generated `__repr__` closed over `attrs`:
`ClassName(a=..., b=...)`. -/
def reprFor (attrs : List Attribute) (self : Inst) : Except String String :=
  (reprParts self attrs).map
    (fun ps => self.clsName ++ "(" ++ String.intercalate ", " ps ++ ")")

/-- A class object: its name, its `__dict__`'s `_CountingAttr` members,
`__attrs_attrs__`, and the dunder method slots (absent when never
installed). -/
structure PyClass where
  name : String
  dict : List (String × CountingAttr)
  attrsAttrs : List Attribute := []
  reprFn : Option (Inst → Except String String) := Option.none
  eqFn : Option (Inst → Inst → CmpRes) := Option.none
  neFn : Option (Inst → Inst → CmpRes) := Option.none
  ltFn : Option (Inst → Inst → CmpRes) := Option.none
  leFn : Option (Inst → Inst → CmpRes) := Option.none
  gtFn : Option (Inst → Inst → CmpRes) := Option.none
  geFn : Option (Inst → Inst → CmpRes) := Option.none
  hashFn : Option (Inst → Except String Int) := Option.none
  initFn : Option ((String → Option Val) →
             Except String (List (String × Val))) := Option.none

/-- `[a for a in cl.__attrs_attrs__ if not a.no_repr]` (the default
attribute selection of `_add_repr`). -/
def selRepr (cl : PyClass) : List Attribute :=
  cl.attrsAttrs.filter (fun a => !a.no_repr)

/-- `[a for a in cl.__attrs_attrs__ if not a.no_cmp]`. -/
def selCmp (cl : PyClass) : List Attribute :=
  cl.attrsAttrs.filter (fun a => !a.no_cmp)

/-- `[a for a in cl.__attrs_attrs__ if not a.no_hash]`. -/
def selHash (cl : PyClass) : List Attribute :=
  cl.attrsAttrs.filter (fun a => !a.no_hash)

/-- `[a for a in cl.__attrs_attrs__ if not a.no_init]` (computed inside
`_add_init`). -/
def selInit (cl : PyClass) : List Attribute :=
  cl.attrsAttrs.filter (fun a => !a.no_init)

/-- `_add_repr(cl, attrs=None)`: install the generated `__repr__`. -/
def _add_repr (cl : PyClass) (attrs : Option (List Attribute)) : PyClass :=
  let sel := match attrs with
    | some l => l
    | Option.none => selRepr cl
  { cl with reprFn := some (reprFor sel) }

/-- `_add_cmp(cl, attrs=None)`: install the six generated comparison
methods. -/
def _add_cmp (cl : PyClass) (attrs : Option (List Attribute)) : PyClass :=
  let sel := match attrs with
    | some l => l
    | Option.none => selCmp cl
  { cl with
    eqFn := some (eqFor sel), neFn := some (neFor sel),
    ltFn := some (ltFor sel), leFn := some (leFor sel),
    gtFn := some (gtFor sel), geFn := some (geFor sel) }

/-- `_add_hash(cl, attrs=None)`: install the generated `__hash__`. -/
def _add_hash (cl : PyClass) (attrs : Option (List Attribute)) : PyClass :=
  let sel := match attrs with
    | some l => l
    | Option.none => selHash cl
  { cl with hashFn := some (hashFor sel) }

/-- `_add_init(cl)`: install the `__init__` compiled from
`_attrs_to_script` over the `no_init`-filtered attributes. -/
def _add_init (cl : PyClass) : PyClass :=
  { cl with initFn := some (runInit (selInit cl)) }

/-- The `wrap` body of the `attributes` decorator: transform the
declared attributes, then install each method family whose `no_*` flag
is unset. -/
def attributes (no_repr no_cmp no_hash no_init : Bool) (cl : PyClass) :
    Except String PyClass := do
  let attrs ← _transform_attrs cl.dict
  let cl := { cl with attrsAttrs := attrs }
  let cl := if !no_repr then _add_repr cl Option.none else cl
  let cl := if !no_cmp then _add_cmp cl Option.none else cl
  let cl := if !no_hash then _add_hash cl Option.none else cl
  let cl := if !no_init then _add_init cl else cl
  Except.ok cl

/-- `_Nothing.__copy__`. -/
def nothingCopy (self : Val) : Val := self

/-- `_Nothing.__deepcopy__` (the memo argument is ignored). -/
def nothingDeepcopy (self : Val) (_memo : List (String × Val)) : Val := self

/-- Deeply `NOTHING`-free values: not the sentinel, and for a `Factory`
the produced value is `NOTHING`-free too (used to state where the
sentinel's universal equality cannot leak into tuple comparisons). -/
def nothingFree : Val → Bool
  | .nothing => false
  | .factory v => nothingFree v
  | _ => true

/-- The attribute name an initializer statement assigns to, if any. -/
def stmtWrites : Stmt → Option String
  | Stmt.validate _ _ => Option.none
  | Stmt.assign an _ => some an
  | Stmt.assignOrFactory an _ _ => some an

/-- The value the statements generated for attribute `a` store in
`self.<a.name>`, as a function of the bound argument environment
(`Option.none` when the argument variable is unbound, in which case
execution raises instead). -/
def writtenVal (env : List (String × Val)) (a : Attribute) : Option Val :=
  match a.default with
  | Val.factory f =>
    match lookupS env (lstripUnderscore a.name) with
    | some v => if v ≠ Val.nothing then some v else some f
    | Option.none => Option.none
  | _ => lookupS env (lstripUnderscore a.name)

/-- A defaulted declaration strictly before a mandatory one, in list
order. -/
def badOrder (L : List (String × CountingAttr)) : Prop :=
  ∃ a b, [a, b].Sublist L ∧ a.2.default ≠ Val.nothing ∧
    b.2.default = Val.nothing

/- Concrete fixtures used by counterexamples and witnesses. -/

/-- A declaration with default `None` and counter 1. -/
def caNoneDef : CountingAttr :=
  ⟨1, Val.none, Option.none, false, false, false, false⟩

/-- A mandatory declaration (default `NOTHING`) with counter 2. -/
def caMand : CountingAttr :=
  ⟨2, Val.nothing, Option.none, false, false, false, false⟩

/-- A declaration with plain default `7` and counter 1. -/
def caSeven : CountingAttr :=
  ⟨1, Val.int 7, Option.none, false, false, false, false⟩

/-- A mandatory declaration with counter 1. -/
def caMandA : CountingAttr :=
  ⟨1, Val.nothing, Option.none, false, false, false, false⟩

/-- A declaration with plain default `7` and counter 2. -/
def caSevenB : CountingAttr :=
  ⟨2, Val.int 7, Option.none, false, false, false, false⟩

/-- A one-member class dict with a single mandatory attribute `m`. -/
def cexDict : List (String × CountingAttr) := [("m", caMand)]

/-- The `Attribute` that `cexDict` transforms to. -/
def aMand : Attribute :=
  ⟨"m", Val.nothing, Option.none, false, false, false, false⟩

/-- The `Attribute` that `("x", caSevenB)` transforms to. -/
def aSevenBAttr : Attribute :=
  ⟨"x", Val.int 7, Option.none, false, false, false, false⟩

/-- A class over `cexDict`, before decoration. -/
def cexCl : PyClass := { name := "C", dict := cexDict }

/-- An instance of `cexCl` whose field `m` holds the sentinel. -/
def xNothing : Inst := ⟨1, "C", [("m", Val.nothing)]⟩

/-- An instance of `cexCl` whose field `m` holds `5`. -/
def yFive : Inst := ⟨1, "C", [("m", Val.int 5)]⟩

/-- An instance of a different class. -/
def zOther : Inst := ⟨2, "D", [("m", Val.int 5)]⟩

/-- An instance of class `P` whose field `x` holds `5`. -/
def pFive : Inst := ⟨3, "P", [("x", Val.int 5)]⟩

/-- Another instance of class `P` whose field `x` holds `5` (plus an
unrelated extra field). -/
def qFive : Inst := ⟨3, "P", [("x", Val.int 5), ("extra", Val.str "e")]⟩

/-- A one-member class dict with a single defaulted attribute `x`. -/
def cl6 : PyClass := { name := "P", dict := [("x", caSeven)] }

/-- The `Attribute` that `cl6.dict` transforms to. -/
def aSeven : Attribute :=
  ⟨"x", Val.int 7, Option.none, false, false, false, false⟩

/-- `cl6` after `_transform_attrs`. -/
def cl6base : PyClass := { cl6 with attrsAttrs := [aSeven] }

/-- `cl6` decorated with every method family. -/
def cl6all : PyClass :=
  _add_init (_add_hash (_add_cmp (_add_repr cl6base Option.none)
    Option.none) Option.none)

/-- `cl6` decorated with `no_repr=True`. -/
def cl6noRepr : PyClass :=
  _add_init (_add_hash (_add_cmp cl6base Option.none) Option.none)

/-- `cl6` decorated with `no_cmp=True`. -/
def cl6noCmp : PyClass :=
  _add_init (_add_hash (_add_repr cl6base Option.none) Option.none)

/-- `cl6` decorated with `no_hash=True`. -/
def cl6noHash : PyClass :=
  _add_init (_add_cmp (_add_repr cl6base Option.none) Option.none)

/-- `cl6` decorated with `no_init=True`. -/
def cl6noInit : PyClass :=
  _add_hash (_add_cmp (_add_repr cl6base Option.none) Option.none)
    Option.none

/-- An attribute `_d` with plain default `7` (underscored name). -/
def aUnd : Attribute :=
  ⟨"_d", Val.int 7, Option.none, false, false, false, false⟩

/-- An attribute `f` whose default is a `Factory` producing `"fresh"`. -/
def aFac : Attribute :=
  ⟨"f", Val.factory (Val.str "fresh"), Option.none, false, false, false,
   false⟩

/-- A three-attribute list: mandatory `m`, plain-defaulted `_d`,
factory-defaulted `f`. -/
def wAttrs : List Attribute := [aMand, aUnd, aFac]

/-- A call passing only `m=1`. -/
def wPassed : String → Option Val :=
  fun n => if n = "m" then some (Val.int 1) else Option.none

/-- The instance `__dict__` the generated `__init__` for `wAttrs`
produces under `wPassed` (most recent assignment first). -/
def wFields : List (String × Val) :=
  [("f", Val.str "fresh"), ("_d", Val.int 7), ("m", Val.int 1)]

/-- An attribute `r` with `no_repr=True`. -/
def aNR : Attribute :=
  ⟨"r", Val.int 1, Option.none, true, false, false, false⟩

/-- An attribute `i` with `no_init=True`. -/
def aNI : Attribute :=
  ⟨"i", Val.int 2, Option.none, false, false, false, true⟩

/-- A class carrying `aNR`, `aNI` and `aSeven`. -/
def cl4 : PyClass := { name := "Q", dict := [], attrsAttrs := [aNR, aNI, aSeven] }

/-- The instance `__dict__` the generated `__init__` for `cl4` produces
when no argument is passed. -/
def f4 : List (String × Val) := [("x", Val.int 7), ("r", Val.int 1)]

/-! ## Theorems -/

/-- C8: the `NOTHING` sentinel compares equal to every value, whatever
its type, and `!=` accordingly yields false, because `_Nothing.__eq__`
ignores its argument. -/
theorem nothing_eq_everything (v : Val) :
    pyEq Val.nothing v = true ∧ pyNe Val.nothing v = false := by
  have h : pyEq Val.nothing v = true := by cases v <;> rfl
  exact ⟨h, by simp [pyNe, h]⟩

/-- C5: `NOTHING` is a unique sentinel: it is distinct from `None` and
from every other modelled value; an attribute is given a mandatory
initializer parameter exactly when its default is `NOTHING` (so a
default of `None` counts as a real default); a `None`-defaulted
declaration followed by a mandatory one triggers the `ValueError` of
`_transform_attrs`, i.e. `None` sets `had_default`; and `__copy__` and
`__deepcopy__` return the sentinel itself. -/
theorem nothing_unique_sentinel :
    (Val.nothing ≠ Val.none) ∧
    (∀ n : Int, Val.nothing ≠ Val.int n) ∧
    (∀ s : String, Val.nothing ≠ Val.str s) ∧
    (∀ v : Val, Val.nothing ≠ Val.factory v) ∧
    (∀ a : Attribute,
      (scriptFor a).1.default = Option.none ↔ a.default = Val.nothing) ∧
    (∀ n m : String, ∀ ca cb : CountingAttr, ca.default = Val.none →
      cb.default = Val.nothing →
      ∃ e, transformLoop false [(n, ca), (m, cb)] = Except.error e) ∧
    nothingCopy Val.nothing = Val.nothing ∧
    (∀ memo, nothingDeepcopy Val.nothing memo = Val.nothing) := by
  refine ⟨by simp, by simp, by simp, by simp, ?_, ?_, rfl, fun _ => rfl⟩
  · intro a
    unfold scriptFor
    rcases hd : a.default <;> simp [hd]
  · intro n m ca cb hca hcb
    refine ⟨"No mandatory attributes allowed after an attribute with a default value or factory.", ?_⟩
    simp [transformLoop, Attribute.from_counting_attr, hca, hcb]

/-- Witness for C5 at concrete inputs. -/
theorem nothing_unique_sentinel_witness :
    ∃ e, transformLoop false [("x", caNoneDef), ("y", caMand)] =
      Except.error e :=
  nothing_unique_sentinel.2.2.2.2.2.1 "x" "y" caNoneDef caMand rfl rfl

theorem transformLoop_cons (had : Bool) (n : String) (ca : CountingAttr)
    (rest : List (String × CountingAttr)) :
    transformLoop had ((n, ca) :: rest) =
      if had ∧ ca.default = Val.nothing then
        Except.error "No mandatory attributes allowed after an attribute with a default value or factory."
      else
        match transformLoop (had || decide (ca.default ≠ Val.nothing)) rest with
        | Except.ok tail =>
            Except.ok (Attribute.from_counting_attr n ca :: tail)
        | Except.error e => Except.error e := rfl

theorem transformLoop_cons_raise (n : String) (ca : CountingAttr)
    (rest : List (String × CountingAttr)) (h : ca.default = Val.nothing) :
    transformLoop true ((n, ca) :: rest) =
      Except.error "No mandatory attributes allowed after an attribute with a default value or factory." := by
  rw [transformLoop_cons, if_pos ⟨rfl, h⟩]

theorem transformLoop_cons_step (had : Bool) (n : String) (ca : CountingAttr)
    (rest : List (String × CountingAttr))
    (h : ¬ (had = true ∧ ca.default = Val.nothing)) :
    transformLoop had ((n, ca) :: rest) =
      match transformLoop (had || decide (ca.default ≠ Val.nothing)) rest with
      | Except.ok tail => Except.ok (Attribute.from_counting_attr n ca :: tail)
      | Except.error e => Except.error e := by
  rw [transformLoop_cons, if_neg]
  intro hc
  exact h hc

theorem transformLoop_ok_eq (had : Bool) (L : List (String × CountingAttr)) :
    ∀ (M : List Attribute), transformLoop had L = Except.ok M →
    M = L.map (fun p => Attribute.from_counting_attr p.1 p.2) := by
  induction L generalizing had with
  | nil =>
    intro M h
    simpa [transformLoop] using h.symm
  | cons p rest ih =>
    obtain ⟨n, ca⟩ := p
    intro M h
    by_cases hc : had = true ∧ ca.default = Val.nothing
    · rw [transformLoop_cons, if_pos hc] at h
      exact absurd h (by simp)
    · rw [transformLoop_cons_step had n ca rest hc] at h
      rcases hrec : transformLoop (had || decide (ca.default ≠ Val.nothing))
        rest with e | tail
      · rw [hrec] at h
        exact absurd h (by simp)
      · rw [hrec] at h
        simp only [Except.ok.injEq] at h
        rw [← h, ih _ _ hrec]
        simp

theorem transformLoop_true_error (L : List (String × CountingAttr)) :
    (∃ e, transformLoop true L = Except.error e) ↔
      ∃ p ∈ L, p.2.default = Val.nothing := by
  induction L with
  | nil =>
    constructor
    · rintro ⟨e, he⟩
      exact absurd he (by simp [transformLoop])
    · rintro ⟨p, hp, -⟩
      simp at hp
  | cons p rest ih =>
    obtain ⟨n, ca⟩ := p
    by_cases h : ca.default = Val.nothing
    · rw [transformLoop_cons_raise n ca rest h]
      constructor
      · intro _
        exact ⟨(n, ca), List.mem_cons_self _ _, h⟩
      · intro _
        exact ⟨_, rfl⟩
    · rw [transformLoop_cons_step true n ca rest (by simp [h])]
      rcases hrec : transformLoop (true || decide (ca.default ≠ Val.nothing))
        rest with e | tail
      · rw [Bool.true_or] at hrec
        constructor
        · intro _
          obtain ⟨q, hq, hqm⟩ := ih.mp ⟨e, hrec⟩
          exact ⟨q, List.mem_cons_of_mem _ hq, hqm⟩
        · intro _
          exact ⟨e, rfl⟩
      · rw [Bool.true_or] at hrec
        constructor
        · rintro ⟨e, he⟩
          exact Except.noConfusion he
        · rintro ⟨q, hq, hqm⟩
          rcases List.mem_cons.mp hq with rfl | hq'
          · exact absurd hqm h
          · obtain ⟨e, he⟩ := ih.mpr ⟨q, hq', hqm⟩
            rw [he] at hrec
            exact Except.noConfusion hrec

theorem badOrder_nil : ¬ badOrder [] := by
  rintro ⟨a, b, hs, -, -⟩
  simp at hs

theorem badOrder_cons_mand (p : String × CountingAttr)
    (rest : List (String × CountingAttr)) (hp : p.2.default = Val.nothing) :
    badOrder (p :: rest) ↔ badOrder rest := by
  constructor
  · rintro ⟨a, b, hs, ha, hb⟩
    rcases List.sublist_cons_iff.mp hs with hs' | ⟨r, hr, hr'⟩
    · exact ⟨a, b, hs', ha, hb⟩
    · cases hr
      exact absurd hp ha
  · rintro ⟨a, b, hs, ha, hb⟩
    exact ⟨a, b, hs.cons _, ha, hb⟩

theorem badOrder_cons_def (p : String × CountingAttr)
    (rest : List (String × CountingAttr)) (hp : p.2.default ≠ Val.nothing) :
    badOrder (p :: rest) ↔ ∃ q ∈ rest, q.2.default = Val.nothing := by
  constructor
  · rintro ⟨a, b, hs, ha, hb⟩
    rcases List.sublist_cons_iff.mp hs with hs' | ⟨r, hr, hr'⟩
    · exact ⟨b, hs'.subset (by simp), hb⟩
    · have hr2 : r = [b] := by
        injection hr with h1 h2
        exact h2.symm
      subst hr2
      exact ⟨b, List.singleton_sublist.mp hr', hb⟩
  · rintro ⟨q, hq, hqm⟩
    exact ⟨p, q, List.Sublist.cons₂ _ (List.singleton_sublist.mpr hq), hp, hqm⟩

theorem transformLoop_false_error (L : List (String × CountingAttr)) :
    (∃ e, transformLoop false L = Except.error e) ↔ badOrder L := by
  induction L with
  | nil =>
    constructor
    · rintro ⟨e, he⟩
      exact absurd he (by simp [transformLoop])
    · exact fun h => absurd h badOrder_nil
  | cons p rest ih =>
    obtain ⟨n, ca⟩ := p
    rw [transformLoop_cons_step false n ca rest (by simp)]
    by_cases h : ca.default = Val.nothing
    · rw [badOrder_cons_mand (n, ca) rest h]
      have hb : (false || decide (ca.default ≠ Val.nothing)) = false := by
        simp [h]
      rw [hb]
      rcases hrec : transformLoop false rest with e | tail
      · constructor
        · intro _
          exact ih.mp ⟨e, hrec⟩
        · intro _
          exact ⟨e, rfl⟩
      · constructor
        · rintro ⟨e, he⟩
          exact Except.noConfusion he
        · intro hbo
          obtain ⟨e, he⟩ := ih.mpr hbo
          rw [he] at hrec
          exact Except.noConfusion hrec
    · rw [badOrder_cons_def (n, ca) rest h]
      have hb : (false || decide (ca.default ≠ Val.nothing)) = true := by
        simp [h]
      rw [hb]
      rcases hrec : transformLoop true rest with e | tail
      · constructor
        · intro _
          exact (transformLoop_true_error rest).mp ⟨e, hrec⟩
        · intro _
          exact ⟨e, rfl⟩
      · constructor
        · rintro ⟨e, he⟩
          exact Except.noConfusion he
        · intro hq
          obtain ⟨e, he⟩ := (transformLoop_true_error rest).mpr hq
          rw [he] at hrec
          exact Except.noConfusion hrec

/-- C3: `_transform_attrs` raises `ValueError` exactly when, in
counter (declaration) order, a mandatory attribute (default `NOTHING`)
occurs strictly after a defaulted one; whenever all mandatory
declarations precede all defaulted ones it completes and returns an
attribute list. -/
theorem transform_valueerror_iff (d : List (String × CountingAttr)) :
    ((∃ e, _transform_attrs d = Except.error e) ↔
       badOrder (sortByCounter d)) ∧
    ((∃ M D, sortByCounter d = M ++ D ∧
        (∀ p ∈ M, p.2.default = Val.nothing) ∧
        (∀ p ∈ D, p.2.default ≠ Val.nothing)) →
      ∃ L, _transform_attrs d = Except.ok L) := by
  have hiff := transformLoop_false_error (sortByCounter d)
  refine ⟨hiff, ?_⟩
  rintro ⟨M, D, hsplit, hM, hD⟩
  have hnb : ¬ badOrder (sortByCounter d) := by
    rw [hsplit]
    rintro ⟨a, b, hs, ha, hb⟩
    rcases List.sublist_append_iff.mp hs with ⟨l1, l2, heq, h1, h2⟩
    rcases l1 with _ | ⟨x, l1t⟩
    · simp only [List.nil_append] at heq
      rw [← heq] at h2
      exact absurd hb (hD b (h2.subset (by simp)))
    · rcases l1t with _ | ⟨y, l1tt⟩
      · simp only [List.cons_append, List.nil_append, List.cons.injEq] at heq
        obtain ⟨rfl, heq2⟩ := heq
        rw [← heq2] at h2
        exact absurd hb (hD b (h2.subset (by simp)))
      · simp only [List.cons_append, List.cons.injEq] at heq
        obtain ⟨rfl, rfl, -⟩ := heq
        exact absurd (hM a (h1.subset (by simp))) ha
  rcases hres : _transform_attrs d with e | L
  · exact absurd (hiff.mp ⟨e, hres⟩) hnb
  · exact ⟨L, rfl⟩

/-- Witness for C3: a `None`-defaulted attribute followed by a
mandatory one raises; a mandatory one followed by a defaulted one
succeeds. -/
theorem transform_valueerror_iff_witness :
    (∃ e, _transform_attrs [("x", caNoneDef), ("y", caMand)] =
      Except.error e) ∧
    (∃ L, _transform_attrs [("m", caMandA), ("x", caSevenB)] =
      Except.ok L) := by
  constructor
  · apply (transform_valueerror_iff [("x", caNoneDef), ("y", caMand)]).1.mpr
    refine ⟨("x", caNoneDef), ("y", caMand), ?_, by decide, rfl⟩
    have hs : sortByCounter [("x", caNoneDef), ("y", caMand)] =
        [("x", caNoneDef), ("y", caMand)] := rfl
    rw [hs]
  · apply (transform_valueerror_iff [("m", caMandA), ("x", caSevenB)]).2
    exact ⟨[("m", caMandA)], [("x", caSevenB)], rfl, by decide, by decide⟩

theorem attrCalls_counter_gt (specs : List AttrSpec) :
    ∀ (c : Nat), ∀ ca ∈ attrCalls c specs, c < ca.counter := by
  induction specs with
  | nil =>
    intro c ca hca
    simp [attrCalls] at hca
  | cons s rest ih =>
    intro c ca hca
    simp only [attrCalls, attr] at hca
    rcases List.mem_cons.mp hca with rfl | h
    · exact Nat.lt_succ_self c
    · exact Nat.lt_trans (Nat.lt_succ_self c) (ih (c + 1) ca h)

theorem attrCalls_strict_mono (c : Nat) (specs : List AttrSpec) :
    (attrCalls c specs).Pairwise (fun x y => x.counter < y.counter) := by
  induction specs generalizing c with
  | nil => simp [attrCalls]
  | cons s rest ih =>
    simp only [attrCalls, attr]
    refine List.Pairwise.cons ?_ (ih (c + 1))
    intro y hy
    exact attrCalls_counter_gt rest (c + 1) y hy

theorem sortByCounter_perm (d : List (String × CountingAttr)) :
    (sortByCounter d).Perm d :=
  List.perm_insertionSort counterLe d

theorem sortByCounter_sorted (d : List (String × CountingAttr)) :
    (sortByCounter d).Pairwise (fun p q => p.2.counter ≤ q.2.counter) :=
  List.sorted_insertionSort counterLe d

/-- C2: on success, `_transform_attrs` returns exactly the class's
`_CountingAttr` members converted by `Attribute.from_counting_attr`, in
counter order: the result is the conversion of a permutation of the
class dict that is sorted by the creation counter; and successive
`attr()` calls hand out strictly increasing counters, so counter order
is declaration order. -/
theorem transform_declaration_order (d : List (String × CountingAttr))
    (L : List Attribute) (h : _transform_attrs d = Except.ok L) :
    L = (sortByCounter d).map
        (fun p => Attribute.from_counting_attr p.1 p.2) ∧
    (sortByCounter d).Perm d ∧
    (sortByCounter d).Pairwise (fun p q => p.2.counter ≤ q.2.counter) ∧
    (∀ c specs,
      (attrCalls c specs).Pairwise (fun x y => x.counter < y.counter)) :=
  ⟨transformLoop_ok_eq false _ L h, sortByCounter_perm d,
   sortByCounter_sorted d, fun c specs => attrCalls_strict_mono c specs⟩

/-- Witness for C2 at a concrete two-member class dict (declared out of
dict order: the mandatory attribute `m` was declared first but appears
second in the dict). -/
theorem transform_declaration_order_witness :
    _transform_attrs [("x", caSevenB), ("m", caMandA)] =
      Except.ok [aMand, aSevenBAttr] ∧
    [aMand, aSevenBAttr] =
      (sortByCounter [("x", caSevenB), ("m", caMandA)]).map
        (fun p => Attribute.from_counting_attr p.1 p.2) := by
  constructor
  · rfl
  · exact (transform_declaration_order [("x", caSevenB), ("m", caMandA)]
      [aMand, aSevenBAttr] rfl).1

/-- C10: each generated comparison method returns `NotImplemented`
when the right operand is not an instance of the left operand's class,
and compares the tuples of included attribute values exactly when the
instance check passes. -/
theorem cmp_instance_gate (attrs : List Attribute) (self other : Inst) :
    (other.clsId ≠ self.clsId →
      eqFor attrs self other = CmpRes.notImplemented ∧
      neFor attrs self other = CmpRes.notImplemented ∧
      ltFor attrs self other = CmpRes.notImplemented ∧
      leFor attrs self other = CmpRes.notImplemented ∧
      gtFor attrs self other = CmpRes.notImplemented ∧
      geFor attrs self other = CmpRes.notImplemented) ∧
    (other.clsId = self.clsId →
      ∀ t1 t2, _attrs_to_tuple self attrs = Except.ok t1 →
        _attrs_to_tuple other attrs = Except.ok t2 →
        eqFor attrs self other = CmpRes.val (tupleEq t1 t2) ∧
        neFor attrs self other = CmpRes.val (!(tupleEq t1 t2)) ∧
        ltFor attrs self other =
          (match tupleCmp pyLtVal (fun m n => decide (m < n)) t1 t2 with
           | some b => CmpRes.val b
           | Option.none => CmpRes.raised "TypeError") ∧
        leFor attrs self other =
          (match tupleCmp pyLeVal (fun m n => decide (m ≤ n)) t1 t2 with
           | some b => CmpRes.val b
           | Option.none => CmpRes.raised "TypeError") ∧
        gtFor attrs self other =
          (match tupleCmp pyGtVal (fun m n => decide (n < m)) t1 t2 with
           | some b => CmpRes.val b
           | Option.none => CmpRes.raised "TypeError") ∧
        geFor attrs self other =
          (match tupleCmp pyGeVal (fun m n => decide (n ≤ m)) t1 t2 with
           | some b => CmpRes.val b
           | Option.none => CmpRes.raised "TypeError")) := by
  constructor
  · intro h
    refine ⟨?_, ?_, ?_, ?_, ?_, ?_⟩ <;>
      simp [eqFor, neFor, ltFor, leFor, gtFor, geFor, ordFor, h]
  · intro h t1 t2 ht1 ht2
    refine ⟨?_, ?_, ?_, ?_, ?_, ?_⟩ <;>
      simp [eqFor, neFor, ltFor, leFor, gtFor, geFor, ordFor, h, ht1, ht2]

/-- Witness for C10: against an instance of another class every method
returns `NotImplemented`; against an instance of the same class the
tuples are compared. -/
theorem cmp_instance_gate_witness :
    eqFor [aMand] yFive zOther = CmpRes.notImplemented ∧
    ltFor [aMand] yFive zOther = CmpRes.notImplemented ∧
    eqFor [aMand] yFive yFive = CmpRes.val true := by
  have h1 := (cmp_instance_gate [aMand] yFive zOther).1 (by decide)
  have h2 := (cmp_instance_gate [aMand] yFive yFive).2 rfl
    [Val.int 5] [Val.int 5] rfl rfl
  exact ⟨h1.1, h1.2.2.1, h2.1⟩

/-- C9 counterexample: decorating the class `cexCl` (one mandatory
attribute `m`, no `no_cmp`/`no_hash` flags) and taking the instance
`xNothing` (field `m` holds `NOTHING`) and `yFive` (field `m` holds
`5`): `x == y` is `True` because `NOTHING` compares equal to
everything, yet `hash(x)` raises (`_Nothing` is unhashable) while
`hash(y)` is an integer, so equal objects do not have equal hashes. -/
theorem eq_hash_inconsistent :
    (attributes false false false false cexCl).map
      (fun cl => cl.attrsAttrs) = Except.ok [aMand] ∧
    (attributes false false false false cexCl).map
      (fun cl => cl.eqFn.map (fun f => f xNothing yFive)) =
      Except.ok (some (CmpRes.val true)) ∧
    (attributes false false false false cexCl).map
      (fun cl => cl.hashFn.map (fun f => f xNothing)) =
      Except.ok (some (Except.error "TypeError: unhashable")) ∧
    (attributes false false false false cexCl).map
      (fun cl => cl.hashFn.map (fun f => f yFive)) =
      Except.ok (some (Except.ok 5381016148)) ∧
    hashFor [aMand] xNothing ≠ hashFor [aMand] yFive := by
  refine ⟨rfl, rfl, rfl, rfl, ?_⟩
  intro h
  have hx : hashFor [aMand] xNothing =
      Except.error "TypeError: unhashable" := rfl
  have hy : hashFor [aMand] yFive = Except.ok 5381016148 := rfl
  rw [hx, hy] at h
  exact Except.noConfusion h

theorem pyEq_eq_of_nothingFree (v : Val) :
    ∀ w : Val, nothingFree v = true → nothingFree w = true →
    pyEq v w = true → v = w := by
  induction v with
  | nothing => intro w hv _ _; simp [nothingFree] at hv
  | none =>
    intro w _ hw hE
    cases w with
    | none => rfl
    | nothing => simp [nothingFree] at hw
    | int n => exact Bool.noConfusion hE
    | str t => exact Bool.noConfusion hE
    | factory b => exact Bool.noConfusion hE
  | int m =>
    intro w _ hw hE
    cases w with
    | nothing => simp [nothingFree] at hw
    | none => exact Bool.noConfusion hE
    | int n =>
      have hmn : m = n := by simpa [pyEq] using hE
      rw [hmn]
    | str t => exact Bool.noConfusion hE
    | factory b => exact Bool.noConfusion hE
  | str s =>
    intro w _ hw hE
    cases w with
    | nothing => simp [nothingFree] at hw
    | none => exact Bool.noConfusion hE
    | int n => exact Bool.noConfusion hE
    | str t =>
      have hst : s = t := by simpa [pyEq] using hE
      rw [hst]
    | factory b => exact Bool.noConfusion hE
  | factory a ih =>
    intro w hv hw hE
    cases w with
    | nothing => simp [nothingFree] at hw
    | factory b =>
      have : a = b := ih b (by simpa [nothingFree] using hv)
        (by simpa [nothingFree] using hw) (by simpa [pyEq] using hE)
      rw [this]
    | none => simp [pyEq] at hE
    | int n => simp [pyEq] at hE
    | str s => simp [pyEq] at hE

theorem tupleEq_eq_of_nothingFree :
    ∀ (t1 t2 : List Val), (∀ v ∈ t1, nothingFree v = true) →
    (∀ v ∈ t2, nothingFree v = true) → tupleEq t1 t2 = true → t1 = t2
  | [], [], _, _, _ => rfl
  | [], _ :: _, _, _, h => by simp [tupleEq] at h
  | _ :: _, [], _, _, h => by simp [tupleEq] at h
  | x :: xs, y :: ys, h1, h2, h => by
    simp only [tupleEq, Bool.and_eq_true] at h
    have hx := pyEq_eq_of_nothingFree x y (h1 x (by simp))
      (h2 y (by simp)) h.1
    have hxs := tupleEq_eq_of_nothingFree xs ys
      (fun v hv => h1 v (by simp [hv]))
      (fun v hv => h2 v (by simp [hv])) h.2
    rw [hx, hxs]

/-- C9 amended: for a class processed by the decorator in which no
attribute sets `no_cmp` or `no_hash`, and for instances whose attribute
tuples contain no `NOTHING` sentinel (not even inside a `Factory`
value), generated equality implies equal generated hashes.  (The
unamended claim fails when a stored value is `NOTHING`: see the
counterexample.) -/
theorem eq_implies_hash_eq (cl : PyClass) (x y : Inst) (t1 t2 : List Val)
    (hflags : ∀ a ∈ cl.attrsAttrs, a.no_cmp = false ∧ a.no_hash = false)
    (hx : _attrs_to_tuple x cl.attrsAttrs = Except.ok t1)
    (hy : _attrs_to_tuple y cl.attrsAttrs = Except.ok t2)
    (hnf1 : ∀ v ∈ t1, nothingFree v = true)
    (hnf2 : ∀ v ∈ t2, nothingFree v = true)
    (heq : eqFor (selCmp cl) x y = CmpRes.val true) :
    hashFor (selHash cl) x = hashFor (selHash cl) y := by
  have hcmp : selCmp cl = cl.attrsAttrs :=
    List.filter_eq_self.mpr (fun a ha => by simp [(hflags a ha).1])
  have hhash : selHash cl = cl.attrsAttrs :=
    List.filter_eq_self.mpr (fun a ha => by simp [(hflags a ha).2])
  rw [hcmp] at heq
  by_cases hc : y.clsId = x.clsId
  · rw [eqFor, if_pos hc, hx, hy] at heq
    have ht : tupleEq t1 t2 = true := by
      simpa using heq
    have : t1 = t2 := tupleEq_eq_of_nothingFree t1 t2 hnf1 hnf2 ht
    rw [hhash, hashFor, hashFor, hx, hy, this]
  · rw [eqFor, if_neg hc] at heq
    exact absurd heq (by simp)

/-- Witness for C9's amended theorem at two distinct but equal
`NOTHING`-free instances of `cl6base`. -/
theorem eq_implies_hash_eq_witness :
    hashFor (selHash cl6base) pFive = hashFor (selHash cl6base) qFive :=
  eq_implies_hash_eq cl6base pFive qFive [Val.int 5] [Val.int 5]
    (by intro a ha; simp [cl6base, cl6, aSeven] at ha; simp [ha, aSeven])
    rfl rfl (by decide) (by decide) rfl

theorem runStmts_append (env : List (String × Val)) (l1 l2 : List Stmt) :
    ∀ f, runStmts env (l1 ++ l2) f =
      match runStmts env l1 f with
      | Except.ok f2 => runStmts env l2 f2
      | Except.error e => Except.error e := by
  induction l1 with
  | nil => intro f; rfl
  | cons s rest ih =>
    intro f
    cases s with
    | validate vid an =>
      simp only [List.cons_append, runStmts]
      cases lookupS env an with
      | none => rfl
      | some v => exact ih f
    | assign an gn =>
      simp only [List.cons_append, runStmts]
      cases lookupS env gn with
      | none => rfl
      | some v => exact ih ((an, v) :: f)
    | assignOrFactory an gn fv =>
      simp only [List.cons_append, runStmts]
      cases lookupS env gn with
      | none => rfl
      | some v =>
        show (if v ≠ Val.nothing then
              runStmts env (rest ++ l2) ((an, v) :: f)
            else runStmts env (rest ++ l2) ((an, fv) :: f)) =
          match (if v ≠ Val.nothing then runStmts env rest ((an, v) :: f)
            else runStmts env rest ((an, fv) :: f)) with
          | Except.ok f2 => runStmts env l2 f2
          | Except.error e => Except.error e
        by_cases hv : v ≠ Val.nothing
        · rw [if_pos hv, if_pos hv]
          exact ih ((an, v) :: f)
        · rw [if_neg hv, if_neg hv]
          exact ih ((an, fv) :: f)

theorem runStmts_not_written (env : List (String × Val)) (n : String) :
    ∀ (l : List Stmt) (f f2 : List (String × Val)),
    runStmts env l f = Except.ok f2 →
    (∀ s ∈ l, stmtWrites s ≠ some n) →
    lookupS f2 n = lookupS f n := by
  intro l
  induction l with
  | nil =>
    intro f f2 h _
    simp only [runStmts, Except.ok.injEq] at h
    rw [← h]
  | cons s rest ih =>
    intro f f2 h hw
    cases s with
    | validate vid an =>
      simp only [runStmts] at h
      cases hl : lookupS env an with
      | none => rw [hl] at h; exact Except.noConfusion h
      | some v =>
        rw [hl] at h
        exact ih f f2 h (fun s hs => hw s (List.mem_cons_of_mem _ hs))
    | assign an gn =>
      simp only [runStmts] at h
      cases hl : lookupS env gn with
      | none => rw [hl] at h; exact Except.noConfusion h
      | some v =>
        rw [hl] at h
        have han : an ≠ n := by
          have := hw _ (List.mem_cons_self _ _)
          simpa [stmtWrites] using this
        have hrest := ih _ f2 h
          (fun s hs => hw s (List.mem_cons_of_mem _ hs))
        rw [hrest]
        simp [lookupS, han]
    | assignOrFactory an gn fv =>
      simp only [runStmts] at h
      cases hl : lookupS env gn with
      | none => rw [hl] at h; exact Except.noConfusion h
      | some v =>
        rw [hl] at h
        have han : an ≠ n := by
          have := hw _ (List.mem_cons_self _ _)
          simpa [stmtWrites] using this
        replace h : (if v ≠ Val.nothing then
            runStmts env rest ((an, v) :: f)
          else runStmts env rest ((an, fv) :: f)) = Except.ok f2 := h
        by_cases hv : v ≠ Val.nothing
        · rw [if_pos hv] at h
          have hrest := ih _ f2 h
            (fun s hs => hw s (List.mem_cons_of_mem _ hs))
          rw [hrest]
          simp [lookupS, han]
        · rw [if_neg hv] at h
          have hrest := ih _ f2 h
            (fun s hs => hw s (List.mem_cons_of_mem _ hs))
          rw [hrest]
          simp [lookupS, han]

theorem scriptFor_argName (a : Attribute) :
    (scriptFor a).1.argName = lstripUnderscore a.name := by
  cases hd : a.default <;> simp [scriptFor, hd]

theorem scriptFor_writes (b : Attribute) :
    ∀ s ∈ (scriptFor b).2, ∀ n, stmtWrites s = some n → n = b.name := by
  intro s hs n hn
  cases hv : b.validator <;> cases hd : b.default <;>
    simp only [scriptFor, hv, hd, List.nil_append, List.cons_append,
      List.mem_cons, List.mem_singleton, List.not_mem_nil, or_false] at hs <;>
    rcases hs with rfl | rfl <;>
    simp_all [stmtWrites]

theorem runStmts_validate_cons (env : List (String × Val)) (vid : Nat)
    (an : String) (rest : List Stmt) (f f1 : List (String × Val))
    (h : runStmts env (Stmt.validate vid an :: rest) f = Except.ok f1) :
    runStmts env rest f = Except.ok f1 := by
  simp only [runStmts] at h
  cases hl : lookupS env an with
  | none => rw [hl] at h; exact Except.noConfusion h
  | some v => rw [hl] at h; exact h

theorem runStmts_scriptFor (env : List (String × Val)) (b : Attribute)
    (f f1 : List (String × Val))
    (h : runStmts env (scriptFor b).2 f = Except.ok f1) :
    ∃ v, writtenVal env b = some v ∧ f1 = (b.name, v) :: f := by
  have h2 : runStmts env
      [(match b.default with
        | Val.factory fv =>
            Stmt.assignOrFactory b.name (lstripUnderscore b.name) fv
        | _ => Stmt.assign b.name (lstripUnderscore b.name))] f =
      Except.ok f1 := by
    cases hv : b.validator with
    | none =>
      cases hd : b.default <;>
        simpa only [scriptFor, hv, hd, List.nil_append] using h
    | some vid =>
      cases hd : b.default <;>
        exact runStmts_validate_cons env vid b.name _ f f1
          (by simpa only [scriptFor, hv, hd, List.cons_append,
            List.nil_append] using h)
  cases hd : b.default with
  | factory fv =>
    rw [hd] at h2
    simp only [runStmts] at h2
    cases hl : lookupS env (lstripUnderscore b.name) with
    | none => rw [hl] at h2; exact Except.noConfusion h2
    | some v =>
      rw [hl] at h2
      replace h2 : (if v ≠ Val.nothing then Except.ok ((b.name, v) :: f)
          else Except.ok ((b.name, fv) :: f)) = Except.ok f1 := h2
      by_cases hv : v ≠ Val.nothing
      · rw [if_pos hv] at h2
        simp only [Except.ok.injEq] at h2
        refine ⟨v, ?_, h2.symm⟩
        simp [writtenVal, hd, hl, hv]
      · rw [if_neg hv] at h2
        simp only [Except.ok.injEq] at h2
        refine ⟨fv, ?_, h2.symm⟩
        simp only [not_not] at hv
        simp [writtenVal, hd, hl, hv]
  | nothing =>
    rw [hd] at h2
    simp only [runStmts] at h2
    cases hl : lookupS env (lstripUnderscore b.name) with
    | none => rw [hl] at h2; exact Except.noConfusion h2
    | some v =>
      rw [hl] at h2
      simp only [runStmts, Except.ok.injEq] at h2
      exact ⟨v, by simp [writtenVal, hd, hl], h2.symm⟩
  | none =>
    rw [hd] at h2
    simp only [runStmts] at h2
    cases hl : lookupS env (lstripUnderscore b.name) with
    | none => rw [hl] at h2; exact Except.noConfusion h2
    | some v =>
      rw [hl] at h2
      simp only [runStmts, Except.ok.injEq] at h2
      exact ⟨v, by simp [writtenVal, hd, hl], h2.symm⟩
  | int k =>
    rw [hd] at h2
    simp only [runStmts] at h2
    cases hl : lookupS env (lstripUnderscore b.name) with
    | none => rw [hl] at h2; exact Except.noConfusion h2
    | some v =>
      rw [hl] at h2
      simp only [runStmts, Except.ok.injEq] at h2
      exact ⟨v, by simp [writtenVal, hd, hl], h2.symm⟩
  | str t =>
    rw [hd] at h2
    simp only [runStmts] at h2
    cases hl : lookupS env (lstripUnderscore b.name) with
    | none => rw [hl] at h2; exact Except.noConfusion h2
    | some v =>
      rw [hl] at h2
      simp only [runStmts, Except.ok.injEq] at h2
      exact ⟨v, by simp [writtenVal, hd, hl], h2.symm⟩

theorem runStmts_script_lookup (env : List (String × Val)) :
    ∀ (attrs : List Attribute) (f f2 : List (String × Val)),
    runStmts env ((attrs.map (fun a => (scriptFor a).2)).flatten) f =
      Except.ok f2 →
    (attrs.map Attribute.name).Nodup →
    ∀ a ∈ attrs, lookupS f2 a.name = writtenVal env a ∧
      (writtenVal env a).isSome = true := by
  intro attrs
  induction attrs with
  | nil =>
    intro f f2 _ _ a ha
    simp at ha
  | cons b rest ih =>
    intro f f2 h hnd a ha
    rw [List.map_cons, List.flatten_cons, runStmts_append] at h
    cases h1 : runStmts env (scriptFor b).2 f with
    | error e => rw [h1] at h; exact Except.noConfusion h
    | ok f1 =>
      rw [h1] at h
      obtain ⟨v, hwv, hf1⟩ := runStmts_scriptFor env b f f1 h1
      have hnd' := List.nodup_cons.mp hnd
      rcases List.mem_cons.mp ha with rfl | hmem
      · refine ⟨?_, by simp [hwv]⟩
        have hpres : lookupS f2 a.name = lookupS f1 a.name := by
          apply runStmts_not_written env a.name _ f1 f2 h
          intro s hs heq
          obtain ⟨l2, hl2, hsl⟩ := List.mem_flatten.mp hs
          obtain ⟨c, hc, rfl⟩ := List.mem_map.mp hl2
          have hcn := scriptFor_writes c s hsl _ heq
          exact hnd'.1 (hcn ▸ List.mem_map_of_mem Attribute.name hc)
        rw [hpres, hf1, hwv]
        simp [lookupS]
      · exact ih f1 f2 h hnd'.2 a hmem

theorem bindArgs_lookup (passed : String → Option Val) :
    ∀ (args : List InitArg) (env : List (String × Val)),
    bindArgs args passed = Except.ok env →
    (args.map InitArg.argName).Nodup →
    ∀ a ∈ args,
      lookupS env a.argName = (passed a.argName).or a.default ∧
      ((passed a.argName).or a.default).isSome = true := by
  intro args
  induction args with
  | nil =>
    intro env _ _ a ha
    simp at ha
  | cons b rest ih =>
    intro env h hnd a ha
    have hnd' := List.nodup_cons.mp hnd
    simp only [bindArgs] at h
    rcases List.mem_cons.mp ha with rfl | hmem
    · cases hp : passed a.argName with
      | some v =>
        rw [hp] at h
        cases hrest : bindArgs rest passed with
        | error e => rw [hrest] at h; exact Except.noConfusion h
        | ok env' =>
          rw [hrest] at h
          simp only [Except.ok.injEq] at h
          rw [← h]
          simp [lookupS, hp, Option.or]
      | none =>
        rw [hp] at h
        cases hdef : a.default with
        | none => rw [hdef] at h; exact Except.noConfusion h
        | some d =>
          rw [hdef] at h
          cases hrest : bindArgs rest passed with
          | error e => rw [hrest] at h; exact Except.noConfusion h
          | ok env' =>
            rw [hrest] at h
            simp only [Except.ok.injEq] at h
            rw [← h]
            simp [lookupS, hp, hdef, Option.or]
    · have hneq : b.argName ≠ a.argName := by
        intro hcontra
        exact hnd'.1 (hcontra ▸ List.mem_map_of_mem InitArg.argName hmem)
      cases hp : passed b.argName with
      | some v =>
        rw [hp] at h
        cases hrest : bindArgs rest passed with
        | error e => rw [hrest] at h; exact Except.noConfusion h
        | ok env' =>
          rw [hrest] at h
          simp only [Except.ok.injEq] at h
          rw [← h]
          have := ih env' hrest hnd'.2 a hmem
          simpa [lookupS, hneq] using this
      | none =>
        rw [hp] at h
        cases hdef : b.default with
        | none => rw [hdef] at h; exact Except.noConfusion h
        | some d =>
          rw [hdef] at h
          cases hrest : bindArgs rest passed with
          | error e => rw [hrest] at h; exact Except.noConfusion h
          | ok env' =>
            rw [hrest] at h
            simp only [Except.ok.injEq] at h
            rw [← h]
            have := ih env' hrest hnd'.2 a hmem
            simpa [lookupS, hneq] using this


theorem scriptFor_default_factory (a : Attribute) (fv : Val)
    (hd : a.default = Val.factory fv) :
    (scriptFor a).1.default = some Val.nothing := by
  simp [scriptFor, hd]

theorem scriptFor_default_plain (a : Attribute)
    (h1 : a.default ≠ Val.nothing) (h2 : a.default.isFactory = false) :
    (scriptFor a).1.default = some a.default := by
  cases hd : a.default <;> simp_all [scriptFor, Val.isFactory]

theorem writtenVal_nonfactory (env : List (String × Val)) (a : Attribute)
    (h : a.default.isFactory = false) :
    writtenVal env a = lookupS env (lstripUnderscore a.name) := by
  cases hd : a.default <;> simp_all [writtenVal, Val.isFactory]

theorem writtenVal_factory (env : List (String × Val)) (a : Attribute)
    (fv : Val) (hd : a.default = Val.factory fv) :
    writtenVal env a =
      match lookupS env (lstripUnderscore a.name) with
      | some v => if v ≠ Val.nothing then some v else some fv
      | Option.none => Option.none := by
  simp [writtenVal, hd]

/-- C1: the `__init__` generated by `_add_init` realizes the field
descriptors: for every attribute with `no_init` unset (and argument
names free of collisions after underscore stripping), a successful call
stores the passed argument value in the field (except that passing
`NOTHING` to a `Factory`-defaulted attribute is treated as omitted);
with the argument omitted, a plain default is stored as is; with a
`Factory` default, omitting the argument or passing `NOTHING` stores
the factory's product. -/
theorem init_realizes_fields (attrs : List Attribute)
    (passed : String → Option Val) (fields : List (String × Val))
    (a : Attribute)
    (hnd : ((attrs.filter (fun b => !b.no_init)).map
      (fun b => lstripUnderscore b.name)).Nodup)
    (hok : runInit (attrs.filter (fun b => !b.no_init)) passed =
      Except.ok fields)
    (ha : a ∈ attrs) (hni : a.no_init = false) :
    (∀ v, passed (lstripUnderscore a.name) = some v →
      (a.default.isFactory = true → v ≠ Val.nothing) →
      lookupS fields a.name = some v) ∧
    (passed (lstripUnderscore a.name) = Option.none →
      a.default ≠ Val.nothing → a.default.isFactory = false →
      lookupS fields a.name = some a.default) ∧
    (∀ fv, a.default = Val.factory fv →
      (passed (lstripUnderscore a.name) = Option.none ∨
       passed (lstripUnderscore a.name) = some Val.nothing) →
      lookupS fields a.name = some fv) := by
  have hmem : a ∈ attrs.filter (fun b => !b.no_init) :=
    List.mem_filter.mpr ⟨ha, by simp [hni]⟩
  have hnames :
      ((attrs.filter (fun b => !b.no_init)).map Attribute.name).Nodup := by
    have h2 : (((attrs.filter (fun b => !b.no_init)).map
        Attribute.name).map lstripUnderscore).Nodup := by
      rw [List.map_map]
      exact hnd
    exact h2.of_map _
  cases henv : bindArgs
      (_attrs_to_script (attrs.filter (fun b => !b.no_init))).1 passed with
  | error e =>
    unfold runInit at hok
    rw [henv] at hok
    exact Except.noConfusion hok
  | ok env =>
    unfold runInit at hok
    rw [henv] at hok
    replace hok : runStmts env
        (_attrs_to_script (attrs.filter (fun b => !b.no_init))).2 [] =
        Except.ok fields := hok
    have hargnd : ((_attrs_to_script
        (attrs.filter (fun b => !b.no_init))).1.map InitArg.argName).Nodup := by
      show (((attrs.filter (fun b => !b.no_init)).map
        (fun b => (scriptFor b).1)).map InitArg.argName).Nodup
      rw [List.map_map]
      have hco : ((attrs.filter (fun b => !b.no_init)).map
          (InitArg.argName ∘ fun b => (scriptFor b).1)) =
          ((attrs.filter (fun b => !b.no_init)).map
            (fun b => lstripUnderscore b.name)) :=
        List.map_congr_left (fun b _ => scriptFor_argName b)
      rw [hco]
      exact hnd
    have harg : (scriptFor a).1 ∈
        (_attrs_to_script (attrs.filter (fun b => !b.no_init))).1 :=
      List.mem_map_of_mem (fun b => (scriptFor b).1) hmem
    obtain ⟨hlook, -⟩ := bindArgs_lookup passed _ env henv hargnd _ harg
    rw [scriptFor_argName] at hlook
    obtain ⟨hfin, -⟩ := runStmts_script_lookup env _ [] fields hok hnames
      a hmem
    refine ⟨?_, ?_, ?_⟩
    · intro v hp hnf
      rw [hp] at hlook
      have hlv : lookupS env (lstripUnderscore a.name) = some v := by
        simpa [Option.or] using hlook
      by_cases hf : a.default.isFactory = true
      · obtain ⟨fv, hd⟩ : ∃ fv, a.default = Val.factory fv := by
          cases hdd : a.default with
          | factory fv => exact ⟨fv, rfl⟩
          | nothing => rw [hdd] at hf; exact Bool.noConfusion hf
          | none => rw [hdd] at hf; exact Bool.noConfusion hf
          | int k => rw [hdd] at hf; exact Bool.noConfusion hf
          | str t => rw [hdd] at hf; exact Bool.noConfusion hf
        have hv : v ≠ Val.nothing := hnf hf
        rw [hfin, writtenVal_factory env a fv hd, hlv]
        simp [hv]
      · rw [hfin, writtenVal_nonfactory env a (by simpa using hf)]
        exact hlv
    · intro hp hnn hnf
      rw [hp, scriptFor_default_plain a hnn hnf] at hlook
      rw [hfin, writtenVal_nonfactory env a hnf]
      simpa [Option.or] using hlook
    · intro fv hd hor
      rw [scriptFor_default_factory a fv hd] at hlook
      have hlv : lookupS env (lstripUnderscore a.name) =
          some Val.nothing := by
        rcases hor with hp | hp <;> rw [hp] at hlook <;>
          simpa [Option.or] using hlook
      rw [hfin, writtenVal_factory env a fv hd, hlv]
      simp

/-- Witness for C1 on a concrete class: `m` mandatory and passed, `_d`
plain-defaulted and omitted, `f` factory-defaulted and omitted. -/
theorem init_realizes_fields_witness :
    lookupS wFields "m" = some (Val.int 1) ∧
    lookupS wFields "_d" = some (Val.int 7) ∧
    lookupS wFields "f" = some (Val.str "fresh") := by
  have hm := init_realizes_fields wAttrs wPassed wFields aMand
    (by decide) rfl (by decide) rfl
  have hd := init_realizes_fields wAttrs wPassed wFields aUnd
    (by decide) rfl (by decide) rfl
  have hf := init_realizes_fields wAttrs wPassed wFields aFac
    (by decide) rfl (by decide) rfl
  refine ⟨?_, ?_, ?_⟩
  · exact hm.1 (Val.int 1) rfl (by decide)
  · exact hd.2.1 rfl (by decide) (by decide)
  · exact hf.2.2 (Val.str "fresh") rfl (Or.inl rfl)

/-- C4: the behavioural flags control inclusion exactly: a `no_repr`
attribute is excluded from the attribute list `__repr__` renders, a
`no_cmp` one from the tuples the comparison methods compare, a
`no_hash` one from the tuple `__hash__` hashes; a `no_init` attribute
neither appears among the generated `__init__`'s parameters nor is
assigned by it, while every other attribute is a parameter and is
assigned. -/
theorem flags_control_inclusion (cl : PyClass) (a : Attribute)
    (hmem : a ∈ cl.attrsAttrs)
    (hnd : (cl.attrsAttrs.map (fun b => lstripUnderscore b.name)).Nodup) :
    (a ∈ selRepr cl ↔ a.no_repr = false) ∧
    (a ∈ selCmp cl ↔ a.no_cmp = false) ∧
    (a ∈ selHash cl ↔ a.no_hash = false) ∧
    ((lstripUnderscore a.name) ∈
        (_attrs_to_script (selInit cl)).1.map InitArg.argName ↔
      a.no_init = false) ∧
    (a.no_init = true → ∀ passed fields,
      runInit (selInit cl) passed = Except.ok fields →
      lookupS fields a.name = Option.none) ∧
    (a.no_init = false → ∀ passed fields,
      runInit (selInit cl) passed = Except.ok fields →
      (lookupS fields a.name).isSome = true) := by
  have hinj : ∀ x ∈ cl.attrsAttrs, ∀ y ∈ cl.attrsAttrs,
      lstripUnderscore x.name = lstripUnderscore y.name → x = y :=
    fun x hx y hy hxy => List.inj_on_of_nodup_map hnd hx hy hxy
  have hnames : (cl.attrsAttrs.map Attribute.name).Nodup := by
    have h2 : ((cl.attrsAttrs.map Attribute.name).map
        lstripUnderscore).Nodup := by
      rw [List.map_map]
      exact hnd
    exact h2.of_map _
  have hnameInj : ∀ x ∈ cl.attrsAttrs, ∀ y ∈ cl.attrsAttrs,
      x.name = y.name → x = y :=
    fun x hx y hy hxy => hinj x hx y hy (by rw [hxy])
  refine ⟨by simp [selRepr, List.mem_filter, hmem],
    by simp [selCmp, List.mem_filter, hmem],
    by simp [selHash, List.mem_filter, hmem], ?_, ?_, ?_⟩
  · constructor
    · intro hin
      have hmap : (_attrs_to_script (selInit cl)).1.map InitArg.argName =
          (selInit cl).map (fun b => lstripUnderscore b.name) := by
        show ((selInit cl).map (fun b => (scriptFor b).1)).map
          InitArg.argName = _
        rw [List.map_map]
        exact List.map_congr_left (fun b _ => scriptFor_argName b)
      rw [hmap] at hin
      obtain ⟨b, hb, hbe⟩ := List.mem_map.mp hin
      have hbattrs : b ∈ cl.attrsAttrs := List.mem_of_mem_filter hb
      have hba : b = a := hinj b hbattrs a hmem hbe
      subst hba
      have hflag := (List.mem_filter.mp hb).2
      simpa using hflag
    · intro hni
      have hin : a ∈ selInit cl := List.mem_filter.mpr ⟨hmem, by simp [hni]⟩
      have : (scriptFor a).1 ∈ (_attrs_to_script (selInit cl)).1 :=
        List.mem_map_of_mem (fun b => (scriptFor b).1) hin
      have := List.mem_map_of_mem InitArg.argName this
      rwa [scriptFor_argName] at this
  · intro hni passed fields hok
    cases henv : bindArgs (_attrs_to_script (selInit cl)).1 passed with
    | error e =>
      unfold runInit at hok
      rw [henv] at hok
      exact Except.noConfusion hok
    | ok env =>
      unfold runInit at hok
      rw [henv] at hok
      replace hok : runStmts env (_attrs_to_script (selInit cl)).2 [] =
          Except.ok fields := hok
      have hpres : lookupS fields a.name = lookupS [] a.name := by
        apply runStmts_not_written env a.name _ [] fields hok
        intro s hs heq
        obtain ⟨l2, hl2, hsl⟩ := List.mem_flatten.mp hs
        obtain ⟨c, hc, rfl⟩ := List.mem_map.mp hl2
        have hcn := scriptFor_writes c s hsl _ heq
        have hcattrs : c ∈ cl.attrsAttrs := List.mem_of_mem_filter hc
        have hca : a = c := hnameInj a hmem c hcattrs hcn
        subst hca
        have := (List.mem_filter.mp hc).2
        rw [hni] at this
        simp at this
      rw [hpres]
      rfl
  · intro hni passed fields hok
    have hin : a ∈ selInit cl := List.mem_filter.mpr ⟨hmem, by simp [hni]⟩
    cases henv : bindArgs (_attrs_to_script (selInit cl)).1 passed with
    | error e =>
      unfold runInit at hok
      rw [henv] at hok
      exact Except.noConfusion hok
    | ok env =>
      unfold runInit at hok
      rw [henv] at hok
      replace hok : runStmts env (_attrs_to_script (selInit cl)).2 [] =
          Except.ok fields := hok
      have hselnames : ((selInit cl).map Attribute.name).Nodup := by
        have hsub : (selInit cl).Sublist cl.attrsAttrs :=
          List.filter_sublist cl.attrsAttrs
        exact hnames.sublist (hsub.map Attribute.name)
      obtain ⟨hfin, hsome⟩ := runStmts_script_lookup env _ [] fields hok
        hselnames a hin
      rw [hfin]
      exact hsome

/-- Witness for C4 on the concrete class `cl4`: the flag-filtered
selections and the `no_init` attribute being left unassigned. -/
theorem flags_control_inclusion_witness :
    ((aNR ∈ selRepr cl4) ↔ aNR.no_repr = false) ∧
    lookupS f4 "i" = Option.none := by
  have h1 := flags_control_inclusion cl4 aNR (by decide) (by decide)
  have h2 := flags_control_inclusion cl4 aNI (by decide) (by decide)
  exact ⟨h1.1, h2.2.2.2.2.1 rfl (fun _ => Option.none) f4 rfl⟩


/-- C6: with all of `no_repr`, `no_cmp`, `no_hash`, `no_init` unset,
the decorator installs all four method families (`__repr__`, the six
comparison methods, `__hash__`, `__init__`); setting exactly one flag
leaves exactly that family's slots untouched and installs the other
three. -/
theorem decorator_installs_families (cl k0 k1 k2 k3 k4 : PyClass)
    (h0 : attributes false false false false cl = Except.ok k0)
    (h1 : attributes true false false false cl = Except.ok k1)
    (h2 : attributes false true false false cl = Except.ok k2)
    (h3 : attributes false false true false cl = Except.ok k3)
    (h4 : attributes false false false true cl = Except.ok k4) :
    (k0.reprFn.isSome = true ∧ k0.eqFn.isSome = true ∧
      k0.neFn.isSome = true ∧ k0.ltFn.isSome = true ∧
      k0.leFn.isSome = true ∧ k0.gtFn.isSome = true ∧
      k0.geFn.isSome = true ∧ k0.hashFn.isSome = true ∧
      k0.initFn.isSome = true) ∧
    (k1.reprFn = cl.reprFn ∧ k1.eqFn.isSome = true ∧
      k1.neFn.isSome = true ∧ k1.ltFn.isSome = true ∧
      k1.leFn.isSome = true ∧ k1.gtFn.isSome = true ∧
      k1.geFn.isSome = true ∧ k1.hashFn.isSome = true ∧
      k1.initFn.isSome = true) ∧
    (k2.eqFn = cl.eqFn ∧ k2.neFn = cl.neFn ∧ k2.ltFn = cl.ltFn ∧
      k2.leFn = cl.leFn ∧ k2.gtFn = cl.gtFn ∧ k2.geFn = cl.geFn ∧
      k2.reprFn.isSome = true ∧ k2.hashFn.isSome = true ∧
      k2.initFn.isSome = true) ∧
    (k3.hashFn = cl.hashFn ∧ k3.reprFn.isSome = true ∧
      k3.eqFn.isSome = true ∧ k3.neFn.isSome = true ∧
      k3.ltFn.isSome = true ∧ k3.leFn.isSome = true ∧
      k3.gtFn.isSome = true ∧ k3.geFn.isSome = true ∧
      k3.initFn.isSome = true) ∧
    (k4.initFn = cl.initFn ∧ k4.reprFn.isSome = true ∧
      k4.eqFn.isSome = true ∧ k4.neFn.isSome = true ∧
      k4.ltFn.isSome = true ∧ k4.leFn.isSome = true ∧
      k4.gtFn.isSome = true ∧ k4.geFn.isSome = true ∧
      k4.hashFn.isSome = true) := by
  cases ht : _transform_attrs cl.dict with
  | error e =>
    unfold attributes at h0
    rw [ht] at h0
    exact Except.noConfusion h0
  | ok attrs =>
    unfold attributes at h0 h1 h2 h3 h4
    rw [ht] at h0 h1 h2 h3 h4
    replace h0 : Except.ok (_add_init (_add_hash (_add_cmp (_add_repr
        { cl with attrsAttrs := attrs } Option.none) Option.none)
        Option.none)) = Except.ok k0 := h0
    replace h1 : Except.ok (_add_init (_add_hash (_add_cmp
        { cl with attrsAttrs := attrs } Option.none) Option.none)) =
        Except.ok k1 := h1
    replace h2 : Except.ok (_add_init (_add_hash (_add_repr
        { cl with attrsAttrs := attrs } Option.none) Option.none)) =
        Except.ok k2 := h2
    replace h3 : Except.ok (_add_init (_add_cmp (_add_repr
        { cl with attrsAttrs := attrs } Option.none) Option.none)) =
        Except.ok k3 := h3
    replace h4 : Except.ok (_add_hash (_add_cmp (_add_repr
        { cl with attrsAttrs := attrs } Option.none) Option.none)
        Option.none) = Except.ok k4 := h4
    injection h0 with he0
    injection h1 with he1
    injection h2 with he2
    injection h3 with he3
    injection h4 with he4
    subst he0
    subst he1
    subst he2
    subst he3
    subst he4
    refine ⟨?_, ?_, ?_, ?_, ?_⟩ <;>
      exact ⟨rfl, rfl, rfl, rfl, rfl, rfl, rfl, rfl, rfl⟩

/-- Witness for C6 on the concrete class `cl6`, decorated five ways. -/
theorem decorator_installs_families_witness :
    cl6all.initFn.isSome = true ∧ cl6noRepr.reprFn = cl6.reprFn ∧
    cl6noCmp.eqFn = cl6.eqFn ∧ cl6noHash.hashFn = cl6.hashFn ∧
    cl6noInit.initFn = cl6.initFn := by
  have h := decorator_installs_families cl6 cl6all cl6noRepr cl6noCmp
    cl6noHash cl6noInit rfl rfl rfl rfl rfl
  exact ⟨h.1.2.2.2.2.2.2.2.2, h.2.1.1, h.2.2.1.1, h.2.2.2.1.1,
    h.2.2.2.2.1⟩


end AttrsMake
